import Mathlib

/-!
Shallow embedding of the event-loop controller of `timer.py` (class
`EventLoop`, lines 20-96).  The controller state is the triple of the
instance fields `_loop`, `_operator`, `_stop_next_step`; the methods
`start`, `step`, `stop`, `dispatch`, `report` and the property `running`
are modelled as pure functions on that state, returning the post state
together with the observable effects of the call: the reports delivered to
the host operator, the ids of dispatched actions that ran to completion,
and the Python exception (if any) the method raises to its caller.

Modelling notes, each tied to a line of the source:
- `stop` (line 73-81) begins with `logger.debug(...)`; no `logger` is
  defined or imported anywhere in `timer.py`, so in Python the call raises
  `NameError` before any state is mutated.  The model reproduces this.
- `step` (line 64-67) calls `self._loop.call_soon(self._loop.stop)` and
  then `run_forever`.  When `_loop` is `None` the attribute access raises
  `AttributeError`; when the loop is closed, `call_soon` raises
  `RuntimeError`.  Otherwise the ready queue is drained: each pending
  action runs, a raising action invokes the installed exception handler,
  and the queued `loop.stop` marker makes `run_forever` return.  A
  `run_forever` with no stop request would block; `runForever` returns
  `none` for that case.
- the exception handler (line 47-58) reads `context.get` for the
  exception; with no exception present, `exc` is `None` and
  `traceback.print_tb(exc.__traceback__)` raises `AttributeError` before
  the report and before the stop flag is set.
-/

namespace Toggl

/-- A Python exception value, abstracted to its type name and message. -/
structure Exc where
  excType : String
  msg : String
deriving DecidableEq

/-- An action given to `dispatch`: an opaque asynchronous unit of work that,
when run, either completes normally (tagged with an id so executions are
observable) or raises an exception. -/
inductive Action where
  | ok : Nat → Action
  | raises : Exc → Action
deriving DecidableEq

/-- A Python-level exception raised by a controller method to its caller. -/
inductive PyErr where
  | nameError : String → PyErr
  | attributeError : String → PyErr
  | runtimeError : String → PyErr
deriving DecidableEq

/-- The host platforms distinguished by `sys.platform` in `start`. -/
inductive Plat where
  | win32 : Plat
  | posix : Plat
deriving DecidableEq

/-- The kind of asyncio event loop allocated by `start`:
`ProactorEventLoop` on win32 (supports subprocesses), the default
selector loop from `asyncio.new_event_loop` elsewhere. -/
inductive LoopKind where
  | proactor : LoopKind
  | selector : LoopKind
deriving DecidableEq

/-- State of the asyncio loop owned by the controller. -/
structure Loop where
  kind : LoopKind
  closed : Bool
  execMaxWorkers : Option Nat
  handlerInstalled : Bool
  childWatcherAttached : Bool
  ready : List Action
deriving DecidableEq

/-- The `EventLoop` controller state: fields `_loop`, `_operator` and
`_stop_next_step` of `timer.py` lines 23-25. -/
structure EventLoop where
  loop : Option Loop
  operator : Option Nat
  stopNextStep : Option Bool
deriving DecidableEq

/-- The class-level initial state: all three fields `None`. -/
def EventLoop.init : EventLoop :=
  { loop := none, operator := none, stopNextStep := none }

/-- Python truthiness of the `_stop_next_step` field
(`None` and `False` are falsy). -/
def truthy : Option Bool → Bool
  | none => false
  | some b => b

/-- The `running` property (lines 93-96):
`self.loop is not None and not self.loop.is_closed()`. -/
def EventLoop.running (s : EventLoop) : Bool :=
  match s.loop with
  | none => false
  | some l => !l.closed

/-- A report message delivered to the host operator. -/
structure Report where
  severity : String
  message : String
deriving DecidableEq

/-- The `report` method (lines 88-91): pass-through to the operator when
one is stored; returns the reports actually delivered. -/
def EventLoop.report (s : EventLoop) (r : Report) : List Report :=
  if s.operator.isSome then [r] else []

/-- Result of one controller method call: the post state, the reports
delivered to the operator, the ids of actions that ran to completion, and
the exception (if any) that the call raises to its caller. -/
structure MRes where
  state : EventLoop
  reports : List Report
  executed : List Nat
  err : Option PyErr
deriving DecidableEq

/-- The loop-wide exception handler installed by `start` (lines 47-58).
`ctx` is the value of `context.get` applied to the key for the exception,
i.e. the exception carried by the handler context, when there is one.
With no exception, `exc` is `None` and `traceback.print_tb(exc.__traceback__)`
raises `AttributeError` before the report and before the stop flag is set.
Otherwise the handler reports one ERROR message through `self.report` and
sets `_stop_next_step = True`. -/
def handle_exception (s : EventLoop) (ctx : Option Exc) : MRes :=
  match ctx with
  | none =>
      { state := s, reports := [], executed := [],
        err := some (PyErr.attributeError ("__traceback__")) }
  | some e =>
      let reps := s.report
        { severity := "ERROR",
          message := "Stopping because of error: " ++ e.excType ++ ": " ++ e.msg }
      { state := { s with stopNextStep := some true },
        reports := reps, executed := [], err := none }

/-- The `start` method (lines 27-58): allocate a fresh loop (Proactor on
win32, default selector loop with an attached child watcher elsewhere),
store the operator, install a `ThreadPoolExecutor` with 10 workers as the
default executor, and install the exception handler.  `_stop_next_step`
is not touched. -/
def EventLoop.start (s : EventLoop) (p : Plat) (op : Nat) : EventLoop :=
  let l : Loop :=
    match p with
    | Plat.win32 =>
        { kind := LoopKind.proactor, closed := false, execMaxWorkers := some 10,
          handlerInstalled := true, childWatcherAttached := false, ready := [] }
    | Plat.posix =>
        { kind := LoopKind.selector, closed := false, execMaxWorkers := some 10,
          handlerInstalled := true, childWatcherAttached := true, ready := [] }
  { s with loop := some l, operator := some op }

/-- The `dispatch` method (lines 83-86): when `running`, schedule the
action on the owned loop via `asyncio.ensure_future`; otherwise do
nothing. -/
def EventLoop.dispatch (s : EventLoop) (a : Action) : MRes :=
  if s.running then
    match s.loop with
    | some l =>
        { state := { s with loop := some { l with ready := l.ready ++ [a] } },
          reports := [], executed := [], err := none }
    | none =>
        { state := s, reports := [], executed := [], err := none }
  else
    { state := s, reports := [], executed := [], err := none }

/-- A callback on the loop's ready queue during one `run_forever`: either
one pending dispatched action, or the `loop.stop` marker queued by `step`
via `call_soon`. -/
inductive Callback where
  | taskStep : Action → Callback
  | loopStop : Callback
deriving DecidableEq

/-- Observable outcome of one `run_forever` drain. -/
structure DrainRes where
  state : EventLoop
  reports : List Report
  executed : List Nat
deriving DecidableEq

/-- One `run_forever` call (line 67): run the ready callbacks in order;
the `loop.stop` marker makes the loop return.  If the queue runs out with
no stop request the real loop would keep waiting for events and never
return to the caller; that case is `none`. -/
def runForever (s : EventLoop) (q : List Callback) : Option DrainRes :=
  match q with
  | [] => none
  | Callback.loopStop :: _ =>
      some { state := s, reports := [], executed := [] }
  | Callback.taskStep a :: rest =>
      match a with
      | Action.ok n =>
          match runForever s rest with
          | none => none
          | some r => some { r with executed := n :: r.executed }
      | Action.raises e =>
          let h := handle_exception s (some e)
          match runForever h.state rest with
          | none => none
          | some r => some { r with reports := h.reports ++ r.reports }

/-- The tail of `step` (lines 69-71), after `run_forever` has returned:
with a truthy `_stop_next_step`, reset the flag to `False` and call
`self.stop()` — which raises `NameError` (`logger` is undefined, line 75)
after the flag was already reset; otherwise return normally.  A drain
that never returned (`none`) never reaches this code. -/
def stepFinish (r : DrainRes) : MRes :=
  if truthy r.state.stopNextStep then
    { state := { r.state with stopNextStep := some false },
      reports := r.reports, executed := r.executed,
      err := some (PyErr.nameError ("logger")) }
  else
    { state := r.state, reports := r.reports,
      executed := r.executed, err := none }

/-- The `step` method (lines 64-71).  With `_loop = None` the attribute
access in `self._loop.call_soon` raises `AttributeError`; on a closed
loop `call_soon` raises `RuntimeError`.  Otherwise the `loop.stop` marker
is queued behind the pending actions and `run_forever` drains them; a
`run_forever` that never returns is the `none` result.  After the drain,
`stepFinish` consumes the stop flag. -/
def EventLoop.step (s : EventLoop) : Option MRes :=
  match s.loop with
  | none =>
      some { state := s, reports := [], executed := [],
             err := some (PyErr.attributeError ("call_soon")) }
  | some l =>
      if l.closed then
        some { state := s, reports := [], executed := [],
               err := some (PyErr.runtimeError ("Event loop is closed")) }
      else
        (runForever { s with loop := some { l with ready := [] } }
          (l.ready.map Callback.taskStep ++ [Callback.loopStop])).map stepFinish

/-- The `stop` method (lines 73-81).  Its first statement is
`logger.debug(...)`; `logger` is not defined anywhere in the module, so
the call raises `NameError` at once and none of the remaining statements
(`self._loop.close()`, `self._loop = None`, `self._operator = None`,
`gc.collect()`) executes: the state is unchanged. -/
def EventLoop.stop (s : EventLoop) : MRes :=
  { state := s, reports := [], executed := [],
    err := some (PyErr.nameError ("logger")) }

/-- One call of the controller's public surface. -/
inductive Call where
  | start : Nat → Call
  | step : Call
  | stop : Call
  | dispatch : Action → Call
deriving DecidableEq

/-- Everything a caller observes from one call: reports delivered,
actions completed, the exception raised (if any), whether the call never
returned (a blocked `run_forever`), and the value of `running` after the
call. -/
structure Obs where
  reports : List Report
  executed : List Nat
  err : Option PyErr
  blocked : Bool
  runningAfter : Bool
deriving DecidableEq

/-- Execute one call on a controller state, on platform `p`. -/
def execCall (p : Plat) (s : EventLoop) : Call → EventLoop × Obs
  | Call.start op =>
      let s' := s.start p op
      (s', { reports := [], executed := [], err := none, blocked := false,
             runningAfter := s'.running })
  | Call.step =>
      match s.step with
      | none =>
          (s, { reports := [], executed := [], err := none, blocked := true,
                runningAfter := s.running })
      | some r =>
          (r.state, { reports := r.reports, executed := r.executed,
                      err := r.err, blocked := false,
                      runningAfter := r.state.running })
  | Call.stop =>
      let r := s.stop
      (r.state, { reports := r.reports, executed := r.executed, err := r.err,
                  blocked := false, runningAfter := r.state.running })
  | Call.dispatch a =>
      let r := s.dispatch a
      (r.state, { reports := r.reports, executed := r.executed, err := r.err,
                  blocked := false, runningAfter := r.state.running })

/-- The observations produced by a sequence of calls. -/
def trace (p : Plat) (s : EventLoop) : List Call → List Obs
  | [] => []
  | c :: cs =>
      let r := execCall p s c
      r.2 :: trace p r.1 cs

/-- States reachable from the initial state through the public surface. -/
inductive Reachable (p : Plat) : EventLoop → Prop where
  | init : Reachable p EventLoop.init
  | exec : ∀ (s : EventLoop) (c : Call), Reachable p s →
      Reachable p (execCall p s c).1

/-! ### Helper lemmas -/

/-- A drain whose queue ends in the `loop.stop` marker queued by `step`
always returns: the marker bounds the generation. -/
theorem runForever_isSome (acts : List Action) : ∀ s : EventLoop,
    (runForever s (acts.map Callback.taskStep ++ [Callback.loopStop])).isSome = true := by
  induction acts with
  | nil => intro s; rfl
  | cons a rest ih =>
      intro s
      cases a with
      | ok n =>
          have h := ih s
          simp only [List.map_cons, List.cons_append, runForever]
          cases hr : runForever s (rest.map Callback.taskStep ++ [Callback.loopStop]) with
          | none => rw [hr] at h; simp at h
          | some r => simp
      | raises e =>
          have h := ih (handle_exception s (some e)).state
          simp only [List.map_cons, List.cons_append, runForever]
          cases hr : runForever (handle_exception s (some e)).state
              (rest.map Callback.taskStep ++ [Callback.loopStop]) with
          | none => rw [hr] at h; simp at h
          | some r => simp

/-- Whatever the drain produced, `stepFinish` leaves the stop flag falsy:
the observing `step` resets it to `False` before calling `stop`. -/
theorem stepFinish_flag (r : DrainRes) :
    truthy (stepFinish r).state.stopNextStep = false := by
  unfold stepFinish
  split
  · rfl
  · rename_i ht
    simpa using ht

/-- `step` always returns a result: either it raises early, or the queued
stop marker ends the generation. -/
theorem step_isSome (s : EventLoop) : (s.step).isSome = true := by
  unfold EventLoop.step
  split
  · rfl
  · rename_i l _
    split
    · rfl
    · rw [Option.isSome_map']
      exact runForever_isSome l.ready { s with loop := some { l with ready := [] } }

/-- A returning `step` either leaves the state untouched (the early raising
branches) or leaves the stop flag falsy. -/
theorem step_flag_cases (s : EventLoop) (r : MRes) (h : s.step = some r) :
    r.state = s ∨ truthy r.state.stopNextStep = false := by
  unfold EventLoop.step at h
  split at h
  · left
    simp only [Option.some.injEq] at h
    rw [← h]
  · split at h
    · left
      simp only [Option.some.injEq] at h
      rw [← h]
    · right
      rw [Option.map_eq_some'] at h
      obtain ⟨d, _, hd⟩ := h
      rw [← hd]
      exact stepFinish_flag d

/-- After a `step` of a running controller, the stop flag is falsy. -/
theorem step_running_flag (s : EventLoop) (r : MRes) (h1 : s.running = true)
    (h : s.step = some r) : truthy r.state.stopNextStep = false := by
  unfold EventLoop.step at h
  split at h
  · rename_i hL
    unfold EventLoop.running at h1
    rw [hL] at h1
    simp at h1
  · rename_i l hL
    split at h
    · rename_i hc
      unfold EventLoop.running at h1
      rw [hL] at h1
      simp [hc] at h1
    · rw [Option.map_eq_some'] at h
      obtain ⟨d, _, hd⟩ := h
      rw [← hd]
      exact stepFinish_flag d

/-- `dispatch` never touches the stop flag. -/
theorem dispatch_flag (s : EventLoop) (a : Action) :
    ((s.dispatch a).state).stopNextStep = s.stopNextStep := by
  unfold EventLoop.dispatch
  by_cases h : s.running
  · simp only [h, if_true]
    cases s.loop <;> rfl
  · simp only [h, Bool.false_eq_true, if_false]

/-- In every state reachable through the public surface, the stop flag is
falsy between calls: the handler only sets it inside a `step` generation
and the same `step` resets it before returning. -/
theorem reachable_flag (p : Plat) (s : EventLoop) (h : Reachable p s) :
    truthy s.stopNextStep = false := by
  induction h with
  | init => rfl
  | exec s' c _ ih =>
      cases c with
      | start op =>
          simpa [execCall, EventLoop.start] using ih
      | dispatch a =>
          have := dispatch_flag s' a
          simp only [execCall]
          rw [this]; exact ih
      | stop =>
          simpa [execCall, EventLoop.stop] using ih
      | step =>
          cases hs : s'.step with
          | none => simpa [execCall, hs] using ih
          | some r =>
              rcases step_flag_cases s' r hs with h1 | h2
              · simp only [execCall, hs, h1]; exact ih
              · simpa [execCall, hs] using h2

/-- Observational equivalence of controller states: equal loop and
operator, and stop flags of equal truthiness (`None` and `False` cannot be
told apart through the public surface, which only tests the flag). -/
def FlagEquiv (s t : EventLoop) : Prop :=
  s.loop = t.loop ∧ s.operator = t.operator ∧
    truthy s.stopNextStep = truthy t.stopNextStep

/-- Relation between drain results of observationally equivalent states. -/
def DRel : Option DrainRes → Option DrainRes → Prop
  | none, none => True
  | some r1, some r2 =>
      r1.reports = r2.reports ∧ r1.executed = r2.executed ∧
        FlagEquiv r1.state r2.state
  | _, _ => False

/-- Relation between method results of observationally equivalent states. -/
def MRel : Option MRes → Option MRes → Prop
  | none, none => True
  | some r1, some r2 =>
      r1.reports = r2.reports ∧ r1.executed = r2.executed ∧ r1.err = r2.err ∧
        FlagEquiv r1.state r2.state
  | _, _ => False

/-- `running` only reads the loop field. -/
theorem running_congr (s t : EventLoop) (h : s.loop = t.loop) :
    s.running = t.running := by
  unfold EventLoop.running
  rw [h]

/-- The exception handler acts the same on observationally equivalent
states: same reports, and equivalent post states. -/
theorem handle_exception_equiv (s t : EventLoop) (e : Exc) (h : FlagEquiv s t) :
    (handle_exception s (some e)).reports = (handle_exception t (some e)).reports ∧
      FlagEquiv (handle_exception s (some e)).state (handle_exception t (some e)).state := by
  obtain ⟨h1, h2, h3⟩ := h
  refine ⟨?_, ?_, ?_, ?_⟩
  · simp only [handle_exception, EventLoop.report, h2]
  · simpa only [handle_exception] using h1
  · simpa only [handle_exception] using h2
  · rfl

/-- One drain treats observationally equivalent states identically. -/
theorem runForever_equiv (q : List Callback) : ∀ s t : EventLoop, FlagEquiv s t →
    DRel (runForever s q) (runForever t q) := by
  induction q with
  | nil => intro s t _; trivial
  | cons c rest ih =>
      intro s t h
      cases c with
      | loopStop => exact ⟨rfl, rfl, h⟩
      | taskStep a =>
          cases a with
          | ok n =>
              have hd := ih s t h
              cases hs : runForever s rest with
              | none =>
                  cases ht : runForever t rest with
                  | none =>
                      simp only [runForever, hs, ht]
                      trivial
                  | some r2 =>
                      rw [hs, ht] at hd
                      exact absurd hd (by simp [DRel])
              | some r1 =>
                  cases ht : runForever t rest with
                  | none =>
                      rw [hs, ht] at hd
                      exact absurd hd (by simp [DRel])
                  | some r2 =>
                      rw [hs, ht] at hd
                      obtain ⟨e1, e2, f⟩ := hd
                      simp only [runForever, hs, ht]
                      exact ⟨e1, by rw [e2], f⟩
          | raises e =>
              obtain ⟨hrep, hst⟩ := handle_exception_equiv s t e h
              have hd := ih (handle_exception s (some e)).state
                (handle_exception t (some e)).state hst
              cases hs : runForever (handle_exception s (some e)).state rest with
              | none =>
                  cases ht : runForever (handle_exception t (some e)).state rest with
                  | none =>
                      simp only [runForever, hs, ht]
                      trivial
                  | some r2 =>
                      rw [hs, ht] at hd
                      exact absurd hd (by simp [DRel])
              | some r1 =>
                  cases ht : runForever (handle_exception t (some e)).state rest with
                  | none =>
                      rw [hs, ht] at hd
                      exact absurd hd (by simp [DRel])
                  | some r2 =>
                      rw [hs, ht] at hd
                      obtain ⟨e1, e2, f⟩ := hd
                      simp only [runForever, hs, ht]
                      exact ⟨by rw [e1, hrep], e2, f⟩

/-- `stepFinish` keeps the drain's reports. -/
theorem stepFinish_reports (r : DrainRes) : (stepFinish r).reports = r.reports := by
  unfold stepFinish
  split <;> rfl

/-- `stepFinish` keeps the drain's executed actions. -/
theorem stepFinish_executed (r : DrainRes) : (stepFinish r).executed = r.executed := by
  unfold stepFinish
  split <;> rfl

/-- `stepFinish` keeps the loop reference. -/
theorem stepFinish_loop (r : DrainRes) : (stepFinish r).state.loop = r.state.loop := by
  unfold stepFinish
  split <;> rfl

/-- `stepFinish` keeps the operator reference. -/
theorem stepFinish_operator (r : DrainRes) :
    (stepFinish r).state.operator = r.state.operator := by
  unfold stepFinish
  split <;> rfl

/-- `stepFinish` raises exactly when the drain left the stop flag truthy. -/
theorem stepFinish_err (r : DrainRes) :
    (stepFinish r).err = (if truthy r.state.stopNextStep
      then some (PyErr.nameError ("logger")) else none) := by
  unfold stepFinish
  split <;> rfl

/-- `stepFinish` carries the drain relation to the method relation. -/
theorem stepFinish_equiv (d1 d2 : Option DrainRes) (h : DRel d1 d2) :
    MRel (d1.map stepFinish) (d2.map stepFinish) := by
  cases d1 with
  | none =>
      cases d2 with
      | none => trivial
      | some r2 => exact absurd h (by simp [DRel])
  | some r1 =>
      cases d2 with
      | none => exact absurd h (by simp [DRel])
      | some r2 =>
          obtain ⟨e1, e2, f1, f2, f3⟩ := h
          simp only [Option.map_some']
          refine ⟨?_, ?_, ?_, ?_, ?_, ?_⟩
          · rw [stepFinish_reports, stepFinish_reports, e1]
          · rw [stepFinish_executed, stepFinish_executed, e2]
          · rw [stepFinish_err, stepFinish_err, f3]
          · rw [stepFinish_loop, stepFinish_loop, f1]
          · rw [stepFinish_operator, stepFinish_operator, f2]
          · rw [stepFinish_flag, stepFinish_flag]

/-- `step` treats observationally equivalent states identically. -/
theorem step_equiv (s t : EventLoop) (h : FlagEquiv s t) : MRel s.step t.step := by
  obtain ⟨slo, sop, sfl⟩ := s
  obtain ⟨tlo, top, tfl⟩ := t
  obtain ⟨h1, h2, h3⟩ := h
  dsimp only at h1 h2 h3
  subst h1
  subst h2
  cases slo with
  | none => exact ⟨rfl, rfl, rfl, rfl, rfl, h3⟩
  | some l =>
      obtain ⟨k, cl, ex, hi, cw, rd⟩ := l
      cases cl with
      | true => exact ⟨rfl, rfl, rfl, rfl, rfl, h3⟩
      | false =>
          show MRel ((runForever ⟨some ⟨k, false, ex, hi, cw, []⟩, sop, sfl⟩
              (rd.map Callback.taskStep ++ [Callback.loopStop])).map stepFinish)
            ((runForever ⟨some ⟨k, false, ex, hi, cw, []⟩, sop, tfl⟩
              (rd.map Callback.taskStep ++ [Callback.loopStop])).map stepFinish)
          exact stepFinish_equiv _ _
            (runForever_equiv _ _ _ ⟨rfl, rfl, h3⟩)

/-- Every public call treats observationally equivalent states
identically: same observation, and equivalent post states. -/
theorem execCall_equiv (p : Plat) (s t : EventLoop) (c : Call) (h : FlagEquiv s t) :
    (execCall p s c).2 = (execCall p t c).2 ∧
      FlagEquiv (execCall p s c).1 (execCall p t c).1 := by
  obtain ⟨slo, sop, sfl⟩ := s
  obtain ⟨tlo, top, tfl⟩ := t
  obtain ⟨h1, h2, h3⟩ := h
  dsimp only at h1 h2 h3
  subst h1
  subst h2
  cases c with
  | start op => exact ⟨rfl, rfl, rfl, h3⟩
  | stop => exact ⟨rfl, rfl, rfl, h3⟩
  | dispatch a =>
      cases slo with
      | none => exact ⟨rfl, rfl, rfl, h3⟩
      | some l =>
          obtain ⟨k, cl, ex, hi, cw, rd⟩ := l
          cases cl with
          | true => exact ⟨rfl, rfl, rfl, h3⟩
          | false => exact ⟨rfl, rfl, rfl, h3⟩
  | step =>
      have hms := step_equiv ⟨slo, sop, sfl⟩ ⟨slo, sop, tfl⟩ ⟨rfl, rfl, h3⟩
      cases hs : EventLoop.step ⟨slo, sop, sfl⟩ with
      | none =>
          cases ht : EventLoop.step ⟨slo, sop, tfl⟩ with
          | none =>
              simp only [execCall, hs, ht]
              exact ⟨rfl, rfl, rfl, h3⟩
          | some r2 =>
              rw [hs, ht] at hms
              exact absurd hms (by simp [MRel])
      | some r1 =>
          cases ht : EventLoop.step ⟨slo, sop, tfl⟩ with
          | none =>
              rw [hs, ht] at hms
              exact absurd hms (by simp [MRel])
          | some r2 =>
              rw [hs, ht] at hms
              obtain ⟨e1, e2, e3, f1, f2, f3⟩ := hms
              simp only [execCall, hs, ht]
              refine ⟨?_, f1, f2, f3⟩
              rw [e1, e2, e3, running_congr r1.state r2.state f1]

/-- Observationally equivalent states produce identical observation
traces under every sequence of calls. -/
theorem trace_equiv (p : Plat) (cs : List Call) : ∀ s t : EventLoop, FlagEquiv s t →
    trace p s cs = trace p t cs := by
  induction cs with
  | nil => intro s t _; rfl
  | cons c rest ih =>
      intro s t h
      obtain ⟨ho, hs⟩ := execCall_equiv p s t c h
      simp only [trace, ho, ih _ _ hs]

/-! ### Claim theorems -/

/-- The sample faulting exception used in concrete runs. -/
def excBoom : Exc := { excType := "ValueError", msg := "boom" }

/-- C1: after start(7); dispatch(raising action); step(), the controller
reports exactly one ERROR message for the fault, as the claim says; but
the fault-triggered stop at the end of step() raises NameError (logger is
undefined at timer.py line 75), so step() raises to its caller and
running is still true when it returns — the claim's requirement that
isRunning be false by the end of that step() call fails on the code. -/
theorem claim1_step_fault_eval :
    (((EventLoop.init.start Plat.posix 7).dispatch (Action.raises excBoom)).state.step).map
        MRes.reports =
      some [{ severity := "ERROR",
              message := "Stopping because of error: ValueError: boom" }] ∧
    (((EventLoop.init.start Plat.posix 7).dispatch (Action.raises excBoom)).state.step).map
        MRes.err = some (some (PyErr.nameError ("logger"))) ∧
    (((EventLoop.init.start Plat.posix 7).dispatch (Action.raises excBoom)).state.step).map
        (fun r => r.state.running) = some true := by
  decide

/-- C2: stop() on a RUNNING controller raises NameError from the
undefined logger before any teardown statement runs: the loop is not
closed, the operator is not released, and running stays true — contrary
to the claim that stop() closes the context, releases the adapter,
reaches STOPPED and raises no fault. -/
theorem claim2_stop_eval :
    ((EventLoop.init.start Plat.posix 7).stop).err = some (PyErr.nameError ("logger")) ∧
    ((EventLoop.init.start Plat.posix 7).stop).state = EventLoop.init.start Plat.posix 7 ∧
    ((EventLoop.init.start Plat.posix 7).stop).state.running = true := by
  decide

/-- C3 counterexample: on the freshly constructed (not RUNNING)
controller, step() is not a no-op that raises no fault: it raises
AttributeError from the attribute access on the missing loop. -/
theorem claim3_counterexample :
    EventLoop.init.running = false ∧
    (EventLoop.init.step).map MRes.err =
      some (some (PyErr.attributeError ("call_soon"))) := by
  decide

/-- C3 amended: when the controller is not RUNNING, dispatch() is a
complete no-op (no state change, no work, no fault), while step() and
stop() change no state and perform no work but each raises a fault to
the caller. -/
theorem claim3_amended (s : EventLoop) (a : Action) (h : s.running = false) :
    s.dispatch a = { state := s, reports := [], executed := [], err := none } ∧
    (∃ e, s.step = some { state := s, reports := [], executed := [], err := some e }) ∧
    (∃ e2, s.stop = { state := s, reports := [], executed := [], err := some e2 }) := by
  refine ⟨?_, ?_, ⟨PyErr.nameError ("logger"), rfl⟩⟩
  · unfold EventLoop.dispatch
    simp only [h, Bool.false_eq_true, if_false]
  · unfold EventLoop.running at h
    unfold EventLoop.step
    cases hL : s.loop with
    | none => exact ⟨PyErr.attributeError ("call_soon"), rfl⟩
    | some l =>
        rw [hL] at h
        have hc : l.closed = true := by simpa using h
        exact ⟨PyErr.runtimeError ("Event loop is closed"), by simp [hc]⟩

theorem claim3_amended_witness :
    EventLoop.init.running = false ∧
    (EventLoop.init.dispatch (Action.ok 0) =
        { state := EventLoop.init, reports := [], executed := [], err := none } ∧
      (∃ e, EventLoop.init.step =
        some { state := EventLoop.init, reports := [], executed := [], err := some e }) ∧
      (∃ e2, EventLoop.init.stop =
        { state := EventLoop.init, reports := [], executed := [], err := some e2 })) :=
  ⟨by decide, claim3_amended EventLoop.init (Action.ok 0) (by decide)⟩

/-- C4: after the call sequence start(7); stop(), running is still true
even though stop() was called more recently than start() — stop() raised
NameError before it could close the loop — so the claimed biconditional
fails on the code. -/
theorem claim4_running_after_stop_eval :
    (trace Plat.posix EventLoop.init [Call.start 7, Call.stop]).map Obs.runningAfter =
      [true, true] := by
  decide

/-- C5: after start(7); stop(), a dispatch does schedule the action on
the still-open loop (stop() raised NameError before closing it), and the
next step() executes the action — contrary to the claim that dispatch
after a stop() never schedules or executes the action. -/
theorem claim5_dispatch_after_stop_eval :
    ((((EventLoop.init.start Plat.posix 7).stop).state.dispatch (Action.ok 3)).state.loop).map
        Loop.ready = some [Action.ok 3] ∧
    ((((EventLoop.init.start Plat.posix 7).stop).state.dispatch (Action.ok 3)).state.step).map
        MRes.executed = some [3] := by
  decide

/-- C6: from any reachable controller state, the sequence stop();
start(op) yields a state whose observable behavior under every further
call sequence (reports, executed actions, raised faults, blocking, and
the running value) is identical to that of a freshly constructed
controller after start(op): no state of the prior running period — in
particular the stop flag, which is falsy in every reachable state —
carries over observably. -/
theorem claim6_restart_fresh (p : Plat) (s : EventLoop) (op : Nat) (cs : List Call)
    (h : Reachable p s) :
    trace p (((s.stop).state).start p op) cs =
      trace p (EventLoop.init.start p op) cs := by
  apply trace_equiv
  refine ⟨rfl, rfl, ?_⟩
  show truthy s.stopNextStep = truthy (none : Option Bool)
  rw [reachable_flag p s h]
  rfl

theorem claim6_restart_fresh_witness :
    trace Plat.posix (((EventLoop.init.stop).state).start Plat.posix 5)
        [Call.step, Call.dispatch (Action.ok 1), Call.step] =
      trace Plat.posix (EventLoop.init.start Plat.posix 5)
        [Call.step, Call.dispatch (Action.ok 1), Call.step] :=
  claim6_restart_fresh Plat.posix EventLoop.init 5
    [Call.step, Call.dispatch (Action.ok 1), Call.step] Reachable.init

/-- C7: on a running controller every step() call returns a result
(it never blocks): the loop-stop marker queued by call_soon before
run_forever bounds the generation. -/
theorem claim7_step_terminates (s : EventLoop) (_h : s.running = true) :
    (s.step).isSome = true :=
  step_isSome s

theorem claim7_step_terminates_witness :
    (EventLoop.init.start Plat.posix 3).running = true ∧
    ((EventLoop.init.start Plat.posix 3).step).isSome = true :=
  ⟨by decide, claim7_step_terminates (EventLoop.init.start Plat.posix 3) (by decide)⟩

/-- C8: start(op) from a non-running state leaves the controller
running, stores the operator, and owns a fresh open loop with a
10-worker default executor and the fault handler installed; on win32
(whose default selector backend cannot host subprocesses) the
process-capable proactor backend is selected instead. -/
theorem claim8_start_post (p : Plat) (s : EventLoop) (op : Nat) (_h : s.running = false) :
    (s.start p op).running = true ∧
    (s.start p op).operator = some op ∧
    (s.start p op).loop =
      some { kind := (match p with
               | Plat.win32 => LoopKind.proactor
               | Plat.posix => LoopKind.selector),
             closed := false, execMaxWorkers := some 10, handlerInstalled := true,
             childWatcherAttached := (match p with
               | Plat.win32 => false
               | Plat.posix => true),
             ready := [] } := by
  cases p <;> exact ⟨rfl, rfl, rfl⟩

theorem claim8_start_post_witness :
    EventLoop.init.running = false ∧
    ((EventLoop.init.start Plat.win32 4).running = true ∧
      (EventLoop.init.start Plat.win32 4).operator = some 4 ∧
      (EventLoop.init.start Plat.win32 4).loop =
        some { kind := LoopKind.proactor, closed := false, execMaxWorkers := some 10,
               handlerInstalled := true, childWatcherAttached := false, ready := [] }) :=
  ⟨by decide, claim8_start_post Plat.win32 EventLoop.init 4 (by decide)⟩

/-- C9: every run of the fault handler on a context that carries an
exception leaves the stop flag set to True (a later fault sets it to
True again, never unsets it), and a step() of a running controller
leaves the flag falsy on return: the observing step() resets it to
False before acting on it. -/
theorem claim9_fault_flag :
    (∀ (s : EventLoop) (e : Exc),
      (handle_exception s (some e)).state.stopNextStep = some true) ∧
    (∀ (s : EventLoop) (r : MRes), s.running = true → s.step = some r →
      truthy r.state.stopNextStep = false) :=
  ⟨fun _ _ => rfl, step_running_flag⟩

/-- The result of one step() of a freshly started controller. -/
def r9 : MRes :=
  { state := EventLoop.init.start Plat.posix 1, reports := [], executed := [], err := none }

theorem claim9_fault_flag_witness :
    (handle_exception (EventLoop.init.start Plat.posix 1) (some excBoom)).state.stopNextStep =
        some true ∧
      truthy r9.state.stopNextStep = false :=
  ⟨claim9_fault_flag.1 (EventLoop.init.start Plat.posix 1) excBoom,
   claim9_fault_flag.2 (EventLoop.init.start Plat.posix 1) r9 (by decide) (by decide)⟩

/-- C10: the installed fault handler, invoked with a context carrying no
exception, raises AttributeError while extracting the traceback of the
None exception object, before reporting anything and before setting the
stop flag: the handler's normal behavior only happens for contexts that
carry an exception. -/
theorem claim10_handler_no_exc (s : EventLoop) :
    handle_exception s none =
      { state := s, reports := [], executed := [],
        err := some (PyErr.attributeError ("__traceback__")) } :=
  rfl

end Toggl
